import Mathlib

/-!
Shallow embedding of the RAG orchestration pipeline of the rag_app
repository: the chunker, retriever and context assembler from
lib/rag-utils.ts, the image retriever from lib/image-processing.ts,
the system-message augmentation block shared by app/api/chat/route.ts
and app/api/chat/streaming/route.ts, and the conversation store from
hooks/useChatContext.tsx.

Strings are modelled as Lean String (or List Char where character-level
scanning is needed); JS number scores are modelled as rationals, since
the retrieval logic only compares and copies them.
-/

namespace RagApp

/-! Retriever data model, from lib/rag-utils.ts.  The metadata field
(an uninspected JS object that is only copied through) is modelled as a
plain string payload. -/

/-- Raw candidate as returned by the vector-search service: the fields
requested by the GraphQL query, with the certainty from _additional. -/
structure RawDoc where
  content : String
  title : Option String
  source : Option String
  metadata : Option String
  certainty : ℚ
  deriving DecidableEq, Repr

/-- Result shape of retrieveRelevantDocuments, from the RetrievalResult
interface in lib/rag-utils.ts. -/
structure RetrievalResult where
  content : String
  title : Option String
  source : Option String
  metadata : Option String
  score : ℚ
  deriving DecidableEq, Repr

/-- The map step of retrieveRelevantDocuments: the reported score is the
certainty reported by the service. -/
def rawToResult (d : RawDoc) : RetrievalResult :=
  { content := d.content
    title := d.title
    source := d.source
    metadata := d.metadata
    score := d.certainty }

/-- retrieveRelevantDocuments from lib/rag-utils.ts.  The network call is
modelled by its outcome: an Except value holding either the candidate
list the service returned (post limit, so the limit option is not
re-applied here) or a transport or service error.  The try/catch around
the call returns the empty list on error; on success candidates are
filtered by certainty >= minScore and mapped to results. -/
def retrieveRelevantDocuments (response : Except String (List RawDoc))
    (minScore : ℚ) : List RetrievalResult :=
  match response with
  | Except.error _ => []
  | Except.ok docs =>
      (docs.filter (fun d => minScore ≤ d.certainty)).map rawToResult

/-- Raw image candidate as returned by the vector-search service, from
lib/image-processing.ts. -/
structure RawImage where
  id : String
  caption : String
  filename : String
  mimeType : String
  metadata : Option String
  certainty : ℚ
  deriving DecidableEq, Repr

/-- Result shape of retrieveSimilarImages, from the ImageRetrievalResult
interface in lib/image-processing.ts. -/
structure ImageRetrievalResult where
  id : String
  caption : String
  filename : String
  mimeType : String
  metadata : Option String
  score : ℚ
  deriving DecidableEq, Repr

/-- The map step of retrieveSimilarImages. -/
def rawImageToResult (i : RawImage) : ImageRetrievalResult :=
  { id := i.id
    caption := i.caption
    filename := i.filename
    mimeType := i.mimeType
    metadata := i.metadata
    score := i.certainty }

/-- retrieveSimilarImages from lib/image-processing.ts, with the network
call modelled by its outcome as in retrieveRelevantDocuments.  It shares
the filter-then-map shape: certainty >= minScore kept, score set to the
reported certainty, empty list on error. -/
def retrieveSimilarImages (response : Except String (List RawImage))
    (minScore : ℚ) : List ImageRetrievalResult :=
  match response with
  | Except.error _ => []
  | Except.ok imgs =>
      (imgs.filter (fun i => minScore ≤ i.certainty)).map rawImageToResult

/-! Context assembler, from lib/rag-utils.ts. -/

/-- Header line of one context block: the JS template picks
Title/Source pieces (empty when the field is absent or the empty string,
both falsy in JS), filters out empty pieces, and joins with a bar. -/
def docHeader (doc : RetrievalResult) : String :=
  let title := match doc.title with
    | some t => if t = "" then "" else "Title: " ++ t
    | none => ""
  let source := match doc.source with
    | some s => if s = "" then "" else "Source: " ++ s
    | none => ""
  String.intercalate " | " (([title, source]).filter (fun s => s ≠ ""))

/-- One context block of formatContextFromDocuments: the 1-indexed
document tag, the optional header line, then the raw content. -/
def docBlock (index : Nat) (doc : RetrievalResult) : String :=
  "[Document " ++ toString (index + 1) ++ "]" ++
    (if docHeader doc = "" then "" else "\n" ++ docHeader doc) ++
    "\n" ++ doc.content

/-- formatContextFromDocuments from lib/rag-utils.ts: empty input gives
the empty string, otherwise blocks joined by a blank line. -/
def formatContextFromDocuments (documents : List RetrievalResult) : String :=
  if documents.length = 0 then ""
  else String.intercalate "\n\n" (documents.enum.map (fun p => docBlock p.1 p.2))

/-- formatSystemPrompt from lib/rag-utils.ts.  The JS falsy test on the
context string is the emptiness test.  The framing text is copied
byte-for-byte from the source, including the word please in the closing
sentence. -/
def formatSystemPrompt (context : String) (baseSystemPrompt : String) : String :=
  if context = "" then baseSystemPrompt
  else baseSystemPrompt ++ "\n\nContext information is below.\n" ++ context ++
    "\n\nGiven the information above, please respond to the user\x27s query."

/-- Modelled from the spec: the framing the spec quotes for the
augmented prompt, whose closing sentence omits the word please.  Kept
separate from formatSystemPrompt so the two renderings can be compared. -/
def specFormatSystemPrompt (context : String) (baseSystemPrompt : String) : String :=
  if context = "" then baseSystemPrompt
  else baseSystemPrompt ++ "\n\nContext information is below.\n" ++ context ++
    "\n\nGiven the information above, respond to the user\x27s query."

/-! Chat message augmentation, the block shared verbatim by
app/api/chat/route.ts and app/api/chat/streaming/route.ts. -/

/-- Message roles accepted by the chat endpoints. -/
inductive Role where
  | system
  | user
  | assistant
  deriving DecidableEq, Repr

/-- One entry of the message list sent to the generation service. -/
structure ChatMessage where
  role : Role
  content : String
  deriving DecidableEq, Repr

/-- Role test used by the findIndex predicate m.role === system. -/
def isSystem (m : ChatMessage) : Bool :=
  match m.role with
  | Role.system => true
  | _ => false

/-- The findIndex-then-assign pair of the route handlers: locate the
first system-role message and overwrite its content, returning none when
no system-role message exists. -/
def setFirstSystem (enhanced : String) : List ChatMessage → Option (List ChatMessage)
  | [] => none
  | m :: rest =>
      if isSystem m then some ({ m with content := enhanced } :: rest)
      else (setFirstSystem enhanced rest).map (fun l => m :: l)

/-- The add-or-update step of both chat route handlers: if a system-role
message exists its content becomes the enhanced prompt, otherwise a new
system-role entry is unshifted onto the front. -/
def augmentMessages (msgs : List ChatMessage) (enhanced : String) : List ChatMessage :=
  match setFirstSystem enhanced msgs with
  | some msgs2 => msgs2
  | none => { role := Role.system, content := enhanced } :: msgs

/-- Number of system-role messages in a list. -/
def sysCount (msgs : List ChatMessage) : Nat :=
  (msgs.filter isSystem).length

/-! Chunker, from chunkText in lib/rag-utils.ts.  Character-level work
is done on List Char. -/

/-- Whitespace class of the JS regexes and of String.prototype.trim:
the ASCII whitespace characters plus the common Unicode space, line and
byte-order-mark characters. -/
def isJsSpace (c : Char) : Bool :=
  c == ' ' || c == '\t' || c == '\n' || c == '\r' || c == '\x0b' ||
    c == '\x0c' || c == '\u00A0' || c == '\u2028' || c == '\u2029' ||
    c == '\uFEFF'

/-- Index of the last newline in a character list, if any. -/
def lastNewlineIdx : List Char → Option Nat
  | [] => none
  | c :: rest =>
      match lastNewlineIdx rest with
      | some i => some (i + 1)
      | none => if c = '\n' then some 0 else none

/-- Paragraph split of chunkText: text.split on the regex of a newline,
greedy whitespace, newline.  A match starting at a newline consumes the
longest whitespace run that still ends with a newline (regex
backtracking), so it extends to the last newline inside the maximal
whitespace run that follows; the accumulator collects the current
piece.  Recursion is structural on a fuel counter: every step consumes
at least one character, so fuel equal to the text length (as supplied by
splitParas) always suffices and the fuel-exhaustion branch is dead
code. -/
def splitParasAux : Nat → List Char → List Char → List (List Char)
  | _, [], acc => [acc.reverse]
  | 0, l, acc => [acc.reverse ++ l]
  | fuel + 1, c :: rest, acc =>
      if c = '\n' then
        match lastNewlineIdx (rest.takeWhile isJsSpace) with
        | some t => acc.reverse :: splitParasAux fuel (rest.drop (t + 1)) []
        | none => splitParasAux fuel rest (c :: acc)
      else splitParasAux fuel rest (c :: acc)

/-- text.split of the blank-line regex, from chunkText. -/
def splitParas (text : List Char) : List (List Char) :=
  splitParasAux text.length text []

/-- String.prototype.trim: strip JS whitespace from both ends. -/
def jsTrim (l : List Char) : List Char :=
  ((l.dropWhile isJsSpace).reverse.dropWhile isJsSpace).reverse

/-- String.prototype.split with a single-space separator: split at every
space character, keeping empty pieces. -/
def splitOnSpace : List Char → List (List Char)
  | [] => [[]]
  | c :: rest =>
      if c = ' ' then [] :: splitOnSpace rest
      else
        match splitOnSpace rest with
        | w :: ws => (c :: w) :: ws
        | [] => [[c]]

/-- Array.prototype.join with a single-space separator. -/
def joinSpace : List (List Char) → List Char
  | [] => []
  | [w] => w
  | w :: ws => w ++ ' ' :: joinSpace ws

/-- Array.prototype.slice applied to the negation of a Nat n, as in
lastWords.slice(-overlapWordCount): for n = 0 the JS argument is -0,
whose start index resolves to 0 and yields the whole array; for positive
n it yields the last n elements (all of them when n exceeds the
length). -/
def jsSliceNeg (l : List (List Char)) (n : Nat) : List (List Char) :=
  if n = 0 then l else l.drop (l.length - n)

/-- Accumulator of the paragraph-preserving loop of chunkText: the
closed chunks and the running buffer. -/
structure ChunkState where
  chunks : List (List Char)
  currentChunk : List Char
  deriving DecidableEq, Repr

/-- Loop body of the paragraph-preserving mode of chunkText: when the
buffer is non-empty and appending the paragraph would exceed chunkSize,
the trimmed buffer is closed and the next buffer is seeded with the
slice of the last floor(chunkOverlap / 7) space-delimited words; the
paragraph plus a blank line is then appended to the buffer. -/
def chunkStep (chunkSize chunkOverlap : Nat) (st : ChunkState)
    (para : List Char) : ChunkState :=
  if st.currentChunk ≠ [] ∧ chunkSize < st.currentChunk.length + para.length then
    let lastWords := splitOnSpace st.currentChunk
    let overlapWordCount := chunkOverlap / 7
    let seeded := joinSpace (jsSliceNeg lastWords overlapWordCount) ++ [' ']
    { chunks := st.chunks ++ [jsTrim st.currentChunk]
      currentChunk := seeded ++ para ++ ['\n', '\n'] }
  else
    { chunks := st.chunks
      currentChunk := st.currentChunk ++ para ++ ['\n', '\n'] }

/-- Paragraph-preserving mode of chunkText: fold the loop body over the
paragraph split, then flush the final buffer when its trim is
non-empty. -/
def chunkParagraphMode (text : List Char) (chunkSize chunkOverlap : Nat) :
    List (List Char) :=
  let fin := (splitParas text).foldl (chunkStep chunkSize chunkOverlap)
    { chunks := [], currentChunk := [] }
  if jsTrim fin.currentChunk ≠ [] then fin.chunks ++ [jsTrim fin.currentChunk]
  else fin.chunks

/-- String.prototype.substring with possibly negative or oversized
integer arguments: both are clamped into the index range and swapped
when out of order. -/
def jsSubstring (l : List Char) (a b : Int) : List Char :=
  let len : Int := l.length
  let a2 := (min (max a 0) len).toNat
  let b2 := (min (max b 0) len).toNat
  (l.drop (min a2 b2)).take (max a2 b2 - min a2 b2)

/-- Sliding-window loop of chunkText, non-preserving mode.  The JS while
loop keeps running while i < text.length and advances i by
chunkSize - chunkOverlap, with no guard on the sign of the advance; the
embedding makes each iteration spend one unit of fuel and returns none
when fuel runs out, so a run that returns none at every fuel is a
non-terminating loop. -/
def slidingLoop (text : List Char) (chunkSize chunkOverlap : Nat) :
    Nat → Int → Option (List (List Char))
  | 0, _ => none
  | fuel + 1, i =>
      if i < (text.length : Int) then
        match slidingLoop text chunkSize chunkOverlap fuel
            (i + ((chunkSize : Int) - (chunkOverlap : Int))) with
        | some rest => some (jsSubstring text i (i + (chunkSize : Int)) :: rest)
        | none => none
      else some []

/-- chunkText from lib/rag-utils.ts, with the three options passed
explicitly (their TS defaults are 500, 100, true).  Empty text yields
the empty list; paragraph-preserving mode never needs fuel; the
non-preserving sliding window carries the fuel of slidingLoop. -/
def chunkText (text : String) (chunkSize chunkOverlap : Nat)
    (preserveParagraphs : Bool) (fuel : Nat) : Option (List String) :=
  if text = "" then some []
  else if preserveParagraphs then
    some ((chunkParagraphMode text.toList chunkSize chunkOverlap).map
      (fun l => String.mk l))
  else
    (slidingLoop text.toList chunkSize chunkOverlap fuel 0).map
      (fun ls => ls.map (fun l => String.mk l))

/-! Conversation store, from hooks/useChatContext.tsx. -/

/-- Stored message: the fields the deletion logic inspects or carries. -/
structure StoredMessage where
  id : String
  content : String
  deriving DecidableEq, Repr

/-- Conversation record: the fields the deletion logic inspects or
carries (the two Date fields are never read by it and are omitted). -/
structure Conversation where
  id : String
  title : String
  messageIds : List String
  deriving DecidableEq, Repr

/-- The slice of ChatState that deleteConversation touches. -/
structure StoreState where
  conversations : List Conversation
  messages : List StoredMessage
  activeConversationId : Option String
  deriving DecidableEq, Repr

/-- The conversation object created when the last conversation is
deleted; its uuidv4 identity is passed in as freshId. -/
def freshConversation (freshId : String) : Conversation :=
  { id := freshId, title := "New Conversation", messageIds := [] }

/-- First conversation of a list, with a fallback for the (unreachable
in the caller) empty case. -/
def headConvId (l : List Conversation) (fallback : Option String) : Option String :=
  match l with
  | c :: _ => some c.id
  | [] => fallback

/-- deleteConversation from hooks/useChatContext.tsx: drop the
conversation, push a fresh empty one when none remain, move the active
id to the first conversation when the active one was deleted, and keep
only the messages still referenced by some remaining conversation. -/
def deleteConversation (freshId : String) (conversationId : String)
    (st : StoreState) : StoreState :=
  let remaining := st.conversations.filter (fun c => c.id ≠ conversationId)
  let updated := if remaining.isEmpty then [freshConversation freshId] else remaining
  let newActive :=
    if st.activeConversationId = some conversationId then
      headConvId updated st.activeConversationId
    else st.activeConversationId
  let surviving := st.messages.filter
    (fun m => updated.any (fun c => c.messageIds.contains m.id))
  { conversations := updated
    messages := surviving
    activeConversationId := newActive }

/-! Substring occurrence, used to state the ordering scenario of the
assembled system prompt. -/

/-- The pattern p occurs in s starting at index i. -/
def occursAt (s p : List Char) (i : Nat) : Prop :=
  (s.drop i).take p.length = p

instance (s p : List Char) (i : Nat) : Decidable (occursAt s p i) := by
  unfold occursAt; infer_instance

/-- The three patterns each occur in s, at strictly increasing start
positions. -/
def appearsInOrder (s p1 p2 p3 : List Char) : Prop :=
  ∃ i j k, occursAt s p1 i ∧ occursAt s p2 j ∧ occursAt s p3 k ∧ i < j ∧ j < k

/-! Concrete scenario inputs. -/

/-- The single mock retrieval candidate of the useRag scenario: scored
0.95 and titled Doc1. -/
def c4rawDoc : RawDoc :=
  { content := "C"
    title := some "Doc1"
    source := none
    metadata := none
    certainty := 95 / 100 }

/-- The single result the mock retriever returns in the useRag
scenario: scored 0.95 and titled Doc1. -/
def c4result : RetrievalResult :=
  { content := "C"
    title := some "Doc1"
    source := none
    metadata := none
    score := 95 / 100 }

/-- System prompt assembled by the streaming chat route for the useRag
scenario: context formatting over the single mock result, then prompt
formatting over the base prompt BASE. -/
def c4prompt : String :=
  formatSystemPrompt (formatContextFromDocuments [c4result]) "BASE"

/-- Mock candidate above the 0.9 floor. -/
def c5docA : RawDoc :=
  { content := "A", title := some "TA", source := none, metadata := none
    certainty := 95 / 100 }

/-- Mock candidate below the 0.9 floor. -/
def c5docB : RawDoc :=
  { content := "B", title := some "TB", source := none, metadata := none
    certainty := 1 / 2 }

/-- Mock image candidate above the 0.9 floor. -/
def c5imgA : RawImage :=
  { id := "iA", caption := "capA", filename := "a.png", mimeType := "image/png"
    metadata := none, certainty := 95 / 100 }

/-- Mock image candidate below the 0.9 floor. -/
def c5imgB : RawImage :=
  { id := "iB", caption := "capB", filename := "b.png", mimeType := "image/png"
    metadata := none, certainty := 1 / 2 }

/-- Store fixture: conversation c1 holds the only reference to m1 and
shares m2 with conversation c2; m3 is referenced only by c2. -/
def c9conv1 : Conversation :=
  { id := "c1", title := "t1", messageIds := ["m1", "m2"] }

/-- Store fixture: the surviving conversation. -/
def c9conv2 : Conversation :=
  { id := "c2", title := "t2", messageIds := ["m2", "m3"] }

/-- Store fixture: full state with c1 active. -/
def c9state : StoreState :=
  { conversations := [c9conv1, c9conv2]
    messages := [{ id := "m1", content := "x" }, { id := "m2", content := "y" },
      { id := "m3", content := "z" }]
    activeConversationId := some "c1" }

/-! Theorems. -/

/-- Claim C7: formatContextFromDocuments on the empty result list is the
empty string, and formatSystemPrompt with empty context returns the base
prompt unchanged for every base prompt. -/
theorem c7_empty_context_noop :
    formatContextFromDocuments [] = "" ∧
      ∀ base : String, formatSystemPrompt "" base = base :=
  ⟨rfl, fun _ => rfl⟩

/-- Claim C6: when the vector-search call fails, retrieveRelevantDocuments
returns the empty list for every error and every score floor, instead of
propagating the error. -/
theorem c6_failure_degrades_to_empty :
    ∀ (e : String) (m : ℚ), retrieveRelevantDocuments (Except.error e) m = [] :=
  fun _ _ => rfl

/-- Claim C3, counterexample: at context CTX and base prompt BASE the
prompt built by the code differs from the framing quoted by the spec,
whose closing sentence omits the word please. -/
theorem c3_counterexample :
    formatSystemPrompt "CTX" "BASE" ≠ specFormatSystemPrompt "CTX" "BASE" := by
  decide

/-- Claim C3, amended: for every non-empty context c and base prompt b,
the prompt is b, then the blank line and the line Context information is
below., then c, then a blank line and the closing sentence Given the
information above, please respond to the user\x27s query. -/
theorem c3_framing_bytes (c b : String) (h : c ≠ "") :
    formatSystemPrompt c b =
      b ++ "\n\nContext information is below.\n" ++ c ++
        "\n\nGiven the information above, please respond to the user\x27s query." := by
  unfold formatSystemPrompt
  rw [if_neg h]

/-- Witness for c3_framing_bytes at context CTX and base prompt BASE. -/
theorem c3_framing_bytes_witness :
    formatSystemPrompt "CTX" "BASE" =
      "BASE" ++ "\n\nContext information is below.\n" ++ "CTX" ++
        "\n\nGiven the information above, please respond to the user\x27s query." :=
  c3_framing_bytes "CTX" "BASE" (by decide)

/-- Claim C2, counterexample: chunking the two-paragraph 16-character
text with chunkSize 20, chunkOverlap 5 and paragraph preservation does
not produce 2 chunks. -/
theorem c2_counterexample :
    (chunkText "Para A.\n\nPara B." 20 5 true 100).map List.length ≠ some 2 := by
  decide

/-- Claim C2, amended: both paragraphs fit inside one chunk of size 20,
so chunkText returns exactly one chunk equal to the whole text, and no
overlap seeding takes place. -/
theorem c2_single_chunk :
    chunkText "Para A.\n\nPara B." 20 5 true 100 = some ["Para A.\n\nPara B."] := by
  decide

/-- The sliding-window loop at chunkSize 1, chunkOverlap 1 on a
two-character text never finishes: the advance is zero, so the index
stays below the length at every fuel. -/
theorem slidingLoop_stuck :
    ∀ fuel : Nat, slidingLoop ('a' :: 'a' :: []) 1 1 fuel 0 = none := by
  intro fuel
  induction fuel with
  | zero => rfl
  | succ n ih =>
      simp only [slidingLoop, List.length_cons, List.length_nil]
      norm_num [ih]

/-- Claim C1: the code has no guard for chunkOverlap >= chunkSize; on
the two-character text aa with chunkSize 1, chunkOverlap 1 and
paragraph preservation off, the sliding window makes no progress and
chunkText returns no result at any fuel, refuting the required
termination. -/
theorem c1_sliding_window_diverges :
    ∀ fuel : Nat, chunkText "aa" 1 1 false fuel = none := by
  intro fuel
  have ht : "aa".toList = ('a' :: 'a' :: []) := rfl
  have hne : ("aa" : String) ≠ "" := by decide
  simp [chunkText, ht, hne, slidingLoop_stuck fuel]

/-- Claim C5: every result returned by the text retriever scores at
least the floor and carries exactly the certainty the service reported
for its candidate; candidates below the floor never appear in the
output; and the image retriever obeys the same contract. -/
theorem c5_score_floor :
    (∀ (docs : List RawDoc) (m : ℚ) (r : RetrievalResult),
        r ∈ retrieveRelevantDocuments (Except.ok docs) m →
          m ≤ r.score ∧ ∃ d, d ∈ docs ∧ r = rawToResult d ∧ r.score = d.certainty) ∧
    (∀ (docs : List RawDoc) (m : ℚ) (d : RawDoc), d ∈ docs → d.certainty < m →
        rawToResult d ∉ retrieveRelevantDocuments (Except.ok docs) m) ∧
    (∀ (imgs : List RawImage) (m : ℚ) (r : ImageRetrievalResult),
        r ∈ retrieveSimilarImages (Except.ok imgs) m →
          m ≤ r.score ∧ ∃ i, i ∈ imgs ∧ r = rawImageToResult i ∧ r.score = i.certainty) ∧
    (∀ (imgs : List RawImage) (m : ℚ) (i : RawImage), i ∈ imgs → i.certainty < m →
        rawImageToResult i ∉ retrieveSimilarImages (Except.ok imgs) m) := by
  refine ⟨?_, ?_, ?_, ?_⟩
  · intro docs m r hr
    simp only [retrieveRelevantDocuments, List.mem_map, List.mem_filter,
      decide_eq_true_eq] at hr
    obtain ⟨d, ⟨hd, hle⟩, rfl⟩ := hr
    exact ⟨hle, d, hd, rfl, rfl⟩
  · intro docs m d _ hlt hmem
    simp only [retrieveRelevantDocuments, List.mem_map, List.mem_filter,
      decide_eq_true_eq] at hmem
    obtain ⟨d2, ⟨_, hle⟩, heq⟩ := hmem
    have hs : d2.certainty = d.certainty := congrArg RetrievalResult.score heq
    rw [hs] at hle
    exact absurd hle (not_le.mpr hlt)
  · intro imgs m r hr
    simp only [retrieveSimilarImages, List.mem_map, List.mem_filter,
      decide_eq_true_eq] at hr
    obtain ⟨i, ⟨hi, hle⟩, rfl⟩ := hr
    exact ⟨hle, i, hi, rfl, rfl⟩
  · intro imgs m i _ hlt hmem
    simp only [retrieveSimilarImages, List.mem_map, List.mem_filter,
      decide_eq_true_eq] at hmem
    obtain ⟨i2, ⟨_, hle⟩, heq⟩ := hmem
    have hs : i2.certainty = i.certainty := congrArg ImageRetrievalResult.score heq
    rw [hs] at hle
    exact absurd hle (not_le.mpr hlt)

/-- Witness for c5_score_floor: with floor 0.9, the candidate scoring
0.95 is returned with its certainty as score and the candidate scoring
0.5 is dropped, for both documents and images. -/
theorem c5_score_floor_witness :
    ((9 / 10 : ℚ) ≤ (rawToResult c5docA).score ∧
      ∃ d, d ∈ [c5docA, c5docB] ∧ rawToResult c5docA = rawToResult d ∧
        (rawToResult c5docA).score = d.certainty) ∧
    rawToResult c5docB ∉ retrieveRelevantDocuments (Except.ok [c5docA, c5docB]) (9 / 10) ∧
    ((9 / 10 : ℚ) ≤ (rawImageToResult c5imgA).score ∧
      ∃ i, i ∈ [c5imgA, c5imgB] ∧ rawImageToResult c5imgA = rawImageToResult i ∧
        (rawImageToResult c5imgA).score = i.certainty) ∧
    rawImageToResult c5imgB ∉ retrieveSimilarImages (Except.ok [c5imgA, c5imgB]) (9 / 10) := by
  have hdocs : retrieveRelevantDocuments (Except.ok [c5docA, c5docB]) (9 / 10) =
      [rawToResult c5docA] := by
    norm_num [retrieveRelevantDocuments, c5docA, c5docB, List.filter]
  have himgs : retrieveSimilarImages (Except.ok [c5imgA, c5imgB]) (9 / 10) =
      [rawImageToResult c5imgA] := by
    norm_num [retrieveSimilarImages, c5imgA, c5imgB, List.filter]
  refine ⟨?_, ?_, ?_, ?_⟩
  · exact c5_score_floor.1 [c5docA, c5docB] (9 / 10) (rawToResult c5docA)
      (by rw [hdocs]; exact List.mem_singleton.mpr rfl)
  · exact c5_score_floor.2.1 [c5docA, c5docB] (9 / 10) c5docB
      (by simp) (by norm_num [c5docB])
  · exact c5_score_floor.2.2.1 [c5imgA, c5imgB] (9 / 10) (rawImageToResult c5imgA)
      (by rw [himgs]; exact List.mem_singleton.mpr rfl)
  · exact c5_score_floor.2.2.2 [c5imgA, c5imgB] (9 / 10) c5imgB
      (by simp) (by norm_num [c5imgB])

/-- A pattern that occurs in a list is inside it: a non-empty pattern
cannot occur at or past the end. -/
theorem occursAt_length_lt {s p : List Char} {k : Nat} (h : occursAt s p k)
    (hp : p ≠ []) : k < s.length := by
  by_contra hk
  push_neg at hk
  have hd : s.drop k = [] := List.drop_eq_nil_of_le hk
  unfold occursAt at h
  rw [hd] at h
  simp at h
  exact hp h

set_option maxRecDepth 8192 in
/-- Claim C4, counterexample: in the assembled prompt of the useRag
scenario the base prompt occurs only at the very beginning, so the three
substrings do not appear in the order Document tag, Title line, base
prompt. -/
theorem c4_counterexample :
    ¬ appearsInOrder c4prompt.toList (String.toList "[Document 1]")
        (String.toList "Title: Doc1") (String.toList "BASE") := by
  rintro ⟨i, j, k, _, _, h3, _, hjk⟩
  have hk : k < c4prompt.toList.length := occursAt_length_lt h3 (by decide)
  have hlen : c4prompt.toList.length = 128 := by decide
  have hzero : ∀ n : Nat, n < 128 →
      occursAt c4prompt.toList (String.toList "BASE") n → n = 0 := by decide
  have hk0 : k = 0 := hzero k (by omega) h3
  omega

/-- Claim C4, amended: the actual retriever maps the mock candidate of
certainty 0.95 to exactly the scenario result, and the assembled system
prompt contains the base prompt text, the substring starting a document
block, and the title line, in that order: base prompt first, then the
Document 1 tag, then Title: Doc1. -/
theorem c4_prompt_order_base_first :
    retrieveRelevantDocuments (Except.ok [c4rawDoc]) (7 / 10) = [c4result] ∧
    appearsInOrder c4prompt.toList (String.toList "BASE")
      (String.toList "[Document 1]") (String.toList "Title: Doc1") := by
  constructor
  · norm_num [retrieveRelevantDocuments, c4rawDoc, c4result, rawToResult, List.filter]
  · exact ⟨0, 36, 49, by decide, by decide, by decide, by decide, by decide⟩

/-- Counting system messages distributes over cons. -/
theorem sysCount_cons (m : ChatMessage) (l : List ChatMessage) :
    sysCount (m :: l) = sysCount l + (if isSystem m then 1 else 0) := by
  cases hm : isSystem m <;> simp [sysCount, List.filter_cons, hm]

/-- Cons of a system message adds one to the count. -/
theorem sysCount_cons_true {m : ChatMessage} (l : List ChatMessage)
    (hm : isSystem m = true) : sysCount (m :: l) = sysCount l + 1 := by
  simp [sysCount, List.filter_cons, hm]

/-- Cons of a non-system message keeps the count. -/
theorem sysCount_cons_false {m : ChatMessage} (l : List ChatMessage)
    (hm : isSystem m = false) : sysCount (m :: l) = sysCount l := by
  simp [sysCount, List.filter_cons, hm]

/-- A list with no system messages has no system member. -/
theorem sysCount_eq_zero {l : List ChatMessage} (h : sysCount l = 0) :
    ∀ m ∈ l, isSystem m = false := by
  intro m hm
  cases hb : isSystem m with
  | false => rfl
  | true =>
      have hmem : m ∈ l.filter isSystem := List.mem_filter.mpr ⟨hm, hb⟩
      have hnil : l.filter isSystem = [] := List.length_eq_zero.mp h
      rw [hnil] at hmem
      exact absurd hmem (List.not_mem_nil m)

/-- When the findIndex step finds nothing, the list has no system
message. -/
theorem setFirstSystem_none {p : String} : ∀ {l : List ChatMessage},
    setFirstSystem p l = none → sysCount l = 0 := by
  intro l
  induction l with
  | nil => intro _; rfl
  | cons m rest ih =>
      intro h
      cases hm : isSystem m with
      | true => simp [setFirstSystem, hm] at h
      | false =>
          have hrest : setFirstSystem p rest = none := by
            cases hrest : setFirstSystem p rest with
            | none => rfl
            | some r => simp [setFirstSystem, hm, hrest] at h
          rw [sysCount_cons_false rest hm, ih hrest]

/-- When the list has no system message, the findIndex step finds
nothing. -/
theorem setFirstSystem_of_zero {p : String} : ∀ {l : List ChatMessage},
    sysCount l = 0 → setFirstSystem p l = none := by
  intro l
  induction l with
  | nil => intro _; rfl
  | cons m rest ih =>
      intro h
      rw [sysCount_cons] at h
      cases hm : isSystem m with
      | true => rw [hm] at h; simp at h
      | false =>
          rw [hm] at h
          simp at h
          simp [setFirstSystem, hm, ih h]

/-- Claim C8, amended: when the incoming list holds at most one
system-role message, augmentation yields exactly one system-role
message, every system-role message of the output carries the augmented
content, and with no incoming system-role message the new entry is
prepended at the front. -/
theorem c8_system_message_merge (msgs : List ChatMessage) (p : String)
    (h : sysCount msgs ≤ 1) :
    sysCount (augmentMessages msgs p) = 1 ∧
    (∀ m ∈ augmentMessages msgs p, isSystem m = true → m.content = p) ∧
    (sysCount msgs = 0 → augmentMessages msgs p =
      { role := Role.system, content := p } :: msgs) := by
  induction msgs with
  | nil =>
      refine ⟨rfl, ?_, fun _ => rfl⟩
      intro m hm _
      have hm2 : m = { role := Role.system, content := p } := by
        simpa [augmentMessages, setFirstSystem] using hm
      rw [hm2]
  | cons m0 rest ih =>
      cases hm0 : isSystem m0 with
      | true =>
          have ha : augmentMessages (m0 :: rest) p = { m0 with content := p } :: rest := by
            simp [augmentMessages, setFirstSystem, hm0]
          have hr0 : sysCount rest = 0 := by
            rw [sysCount_cons_true rest hm0] at h
            omega
          refine ⟨?_, ?_, ?_⟩
          · rw [ha, sysCount_cons_true rest
              (show isSystem { m0 with content := p } = true from hm0), hr0]
          · intro m hm hsys
            rw [ha] at hm
            rcases List.mem_cons.mp hm with h1 | h2
            · rw [h1]
            · exact absurd hsys (by simp [sysCount_eq_zero hr0 m h2])
          · intro h0
            rw [sysCount_cons_true rest hm0] at h0
            simp at h0
      | false =>
          have hs : sysCount (m0 :: rest) = sysCount rest :=
            sysCount_cons_false rest hm0
          obtain ⟨ih1, ih2, ih3⟩ := ih (by rw [hs] at h; exact h)
          cases hrest : setFirstSystem p rest with
          | some r =>
              have ha : augmentMessages (m0 :: rest) p = m0 :: r := by
                simp [augmentMessages, setFirstSystem, hm0, hrest]
              have har : augmentMessages rest p = r := by
                simp [augmentMessages, hrest]
              refine ⟨?_, ?_, ?_⟩
              · rw [ha, sysCount_cons_false r hm0]
                exact har ▸ ih1
              · intro m hm hsys
                rw [ha] at hm
                rcases List.mem_cons.mp hm with h1 | h2
                · rw [h1] at hsys
                  rw [hm0] at hsys
                  cases hsys
                · exact ih2 m (har ▸ h2) hsys
              · intro h0
                rw [hs] at h0
                rw [setFirstSystem_of_zero h0] at hrest
                cases hrest
          | none =>
              have ha : augmentMessages (m0 :: rest) p =
                  { role := Role.system, content := p } :: m0 :: rest := by
                simp [augmentMessages, setFirstSystem, hm0, hrest]
              have hr0 : sysCount rest = 0 := setFirstSystem_none hrest
              refine ⟨?_, ?_, ?_⟩
              · rw [ha, sysCount_cons_true (m0 :: rest)
                  (show isSystem { role := Role.system, content := p } = true from rfl),
                  sysCount_cons_false rest hm0, hr0]
              · intro m hm hsys
                rw [ha] at hm
                rcases List.mem_cons.mp hm with h1 | h2
                · rw [h1]
                · rcases List.mem_cons.mp h2 with h3 | h4
                  · rw [h3] at hsys
                    rw [hm0] at hsys
                    cases hsys
                  · exact absurd hsys (by simp [sysCount_eq_zero hr0 m h4])
              · intro _
                exact ha

/-- Witness for c8_system_message_merge on a list with a single user
message. -/
theorem c8_system_message_merge_witness :
    sysCount (augmentMessages [{ role := Role.user, content := "q" }] "P") = 1 ∧
    (∀ m ∈ augmentMessages [{ role := Role.user, content := "q" }] "P",
      isSystem m = true → m.content = "P") ∧
    (sysCount [({ role := Role.user, content := "q" } : ChatMessage)] = 0 →
      augmentMessages [{ role := Role.user, content := "q" }] "P" =
        { role := Role.system, content := "P" } ::
          [{ role := Role.user, content := "q" }]) :=
  c8_system_message_merge [{ role := Role.user, content := "q" }] "P" (by decide)

/-- Claim C8, counterexample: a request that already carries two
system-role messages still carries two after augmentation, so the
outgoing list is not limited to one system-role message for every
incoming list. -/
theorem c8_counterexample :
    ¬ sysCount (augmentMessages
        [{ role := Role.system, content := "a" },
         { role := Role.system, content := "b" },
         { role := Role.user, content := "q" }] "P") ≤ 1 := by
  decide

/-- The space split never returns an empty piece list. -/
theorem splitOnSpace_ne_nil (l : List Char) : splitOnSpace l ≠ [] := by
  cases l with
  | nil => simp [splitOnSpace]
  | cons c rest =>
      simp only [splitOnSpace]
      split
      · simp
      · split <;> simp

/-- Joining pieces whose head starts with a character moves the
character out front. -/
theorem joinSpace_cons_cons (c : Char) (w : List Char) (ws : List (List Char)) :
    joinSpace ((c :: w) :: ws) = c :: joinSpace (w :: ws) := by
  cases ws with
  | nil => rfl
  | cons w2 ws2 => rfl

/-- Splitting at spaces and joining with spaces is the identity, the JS
law that s.split with a space separator joined back with a space is s. -/
theorem joinSpace_splitOnSpace (l : List Char) : joinSpace (splitOnSpace l) = l := by
  induction l with
  | nil => rfl
  | cons c rest ih =>
      obtain ⟨w, ws, hws⟩ : ∃ w ws, splitOnSpace rest = w :: ws := by
        cases h : splitOnSpace rest with
        | nil => exact absurd h (splitOnSpace_ne_nil rest)
        | cons w ws => exact ⟨w, ws, rfl⟩
      by_cases hc : c = ' '
      · subst hc
        have h1 : splitOnSpace (' ' :: rest) = [] :: splitOnSpace rest := by
          simp [splitOnSpace]
        rw [h1, hws]
        show ' ' :: joinSpace (w :: ws) = ' ' :: rest
        rw [← hws, ih]
      · have h1 : splitOnSpace (c :: rest) = (c :: w) :: ws := by
          simp [splitOnSpace, hc, hws]
        rw [h1, joinSpace_cons_cons, ← hws, ih]

/-- Claim C10: when a chunk is closed while floor(chunkOverlap / 7) is
zero, the slice argument -0 selects every word of the closed buffer, so
the next buffer starts with the whole closed buffer (whose trim was just
pushed), followed by a space and the new paragraph. -/
theorem c10_small_overlap_duplicates_chunk (chunkSize chunkOverlap : Nat)
    (st : ChunkState) (para : List Char) (h7 : chunkOverlap < 7)
    (hne : st.currentChunk ≠ [])
    (hover : chunkSize < st.currentChunk.length + para.length) :
    chunkStep chunkSize chunkOverlap st para =
      { chunks := st.chunks ++ [jsTrim st.currentChunk]
        currentChunk := st.currentChunk ++ ' ' :: (para ++ ['\n', '\n']) } := by
  unfold chunkStep
  rw [if_pos ⟨hne, hover⟩]
  have h0 : chunkOverlap / 7 = 0 := Nat.div_eq_of_lt h7
  simp [h0, jsSliceNeg, joinSpace_splitOnSpace, List.append_assoc]

/-- Witness for c10_small_overlap_duplicates_chunk at chunkSize 3,
chunkOverlap 5, buffer ab and paragraph cd. -/
theorem c10_small_overlap_duplicates_chunk_witness :
    chunkStep 3 5 { chunks := [], currentChunk := ['a', 'b'] } ['c', 'd'] =
      { chunks := [] ++ [jsTrim ['a', 'b']]
        currentChunk := ['a', 'b'] ++ ' ' :: (['c', 'd'] ++ ['\n', '\n']) } :=
  c10_small_overlap_duplicates_chunk 3 5 { chunks := [], currentChunk := ['a', 'b'] }
    ['c', 'd'] (by decide) (by decide) (by decide)

/-- Claim C9: deleting a conversation keeps exactly the messages still
referenced by a remaining conversation; when the active conversation is
deleted the first remaining conversation becomes active; when none
remain a fresh empty conversation is created and, if the active one was
deleted, activated; deleting an inactive conversation leaves the active
id unchanged. -/
theorem c9_delete_conversation (st : StoreState) (freshId cid : String) :
    (∀ m, m ∈ (deleteConversation freshId cid st).messages ↔
        (m ∈ st.messages ∧
          ∃ c, c ∈ st.conversations ∧ c.id ≠ cid ∧ m.id ∈ c.messageIds)) ∧
    (st.activeConversationId = some cid →
      ∀ c cs, st.conversations.filter (fun c2 => c2.id ≠ cid) = c :: cs →
        (deleteConversation freshId cid st).activeConversationId = some c.id) ∧
    (st.conversations.filter (fun c2 => c2.id ≠ cid) = [] →
      (deleteConversation freshId cid st).conversations = [freshConversation freshId] ∧
      (st.activeConversationId = some cid →
        (deleteConversation freshId cid st).activeConversationId = some freshId)) ∧
    (st.activeConversationId ≠ some cid →
      (deleteConversation freshId cid st).activeConversationId =
        st.activeConversationId) := by
  cases hrem : st.conversations.filter (fun c2 => c2.id ≠ cid) with
  | nil =>
      have hconvs : (deleteConversation freshId cid st).conversations =
          [freshConversation freshId] := by
        show (if (st.conversations.filter (fun c => c.id ≠ cid)).isEmpty then
            [freshConversation freshId]
          else st.conversations.filter (fun c => c.id ≠ cid)) =
            [freshConversation freshId]
        rw [hrem]
        rfl
      have hmsg : (deleteConversation freshId cid st).messages = [] := by
        show st.messages.filter
            (fun m => (if (st.conversations.filter (fun c => c.id ≠ cid)).isEmpty then
                [freshConversation freshId]
              else st.conversations.filter (fun c => c.id ≠ cid)).any
              (fun c => c.messageIds.contains m.id)) = []
        rw [hrem]
        simp [freshConversation]
      have hact2 : (deleteConversation freshId cid st).activeConversationId =
          (if st.activeConversationId = some cid then some freshId
            else st.activeConversationId) := by
        show (if st.activeConversationId = some cid then
            headConvId (if (st.conversations.filter (fun c => c.id ≠ cid)).isEmpty then
                [freshConversation freshId]
              else st.conversations.filter (fun c => c.id ≠ cid))
              st.activeConversationId
          else st.activeConversationId) =
            (if st.activeConversationId = some cid then some freshId
              else st.activeConversationId)
        rw [hrem]
        rfl
      refine ⟨?_, ?_, ?_, ?_⟩
      · intro m
        rw [hmsg]
        constructor
        · intro h
          exact absurd h (List.not_mem_nil m)
        · rintro ⟨_, c, hc, hne2, _⟩
          have hcf : c ∈ st.conversations.filter (fun c2 => c2.id ≠ cid) :=
            List.mem_filter.mpr ⟨hc, by simpa using hne2⟩
          rw [hrem] at hcf
          exact absurd hcf (List.not_mem_nil c)
      · intro _ c cs hfil
        cases hfil
      · intro _
        exact ⟨hconvs, fun hact => by rw [hact2, if_pos hact]⟩
      · intro hact
        rw [hact2, if_neg hact]
  | cons r rs =>
      have hconvs : (deleteConversation freshId cid st).conversations = r :: rs := by
        show (if (st.conversations.filter (fun c => c.id ≠ cid)).isEmpty then
            [freshConversation freshId]
          else st.conversations.filter (fun c => c.id ≠ cid)) = r :: rs
        rw [hrem]
        rfl
      have hmsg : (deleteConversation freshId cid st).messages =
          st.messages.filter
            (fun m => (r :: rs).any (fun c => c.messageIds.contains m.id)) := by
        show st.messages.filter
            (fun m => (if (st.conversations.filter (fun c => c.id ≠ cid)).isEmpty then
                [freshConversation freshId]
              else st.conversations.filter (fun c => c.id ≠ cid)).any
              (fun c => c.messageIds.contains m.id)) = _
        rw [hrem]
        rfl
      have hact2 : (deleteConversation freshId cid st).activeConversationId =
          (if st.activeConversationId = some cid then some r.id
            else st.activeConversationId) := by
        show (if st.activeConversationId = some cid then
            headConvId (if (st.conversations.filter (fun c => c.id ≠ cid)).isEmpty then
                [freshConversation freshId]
              else st.conversations.filter (fun c => c.id ≠ cid))
              st.activeConversationId
          else st.activeConversationId) =
            (if st.activeConversationId = some cid then some r.id
              else st.activeConversationId)
        rw [hrem]
        rfl
      refine ⟨?_, ?_, ?_, ?_⟩
      · intro m
        rw [hmsg]
        rw [List.mem_filter]
        have hiff : ((r :: rs).any (fun c => c.messageIds.contains m.id) = true) ↔
            ∃ c, c ∈ st.conversations ∧ c.id ≠ cid ∧ m.id ∈ c.messageIds := by
          rw [← hrem]
          simp [List.any_eq_true, List.mem_filter, and_assoc]
        rw [hiff]
      · intro hact c cs hfil
        injection hfil with h1 _
        subst h1
        rw [hact2, if_pos hact]
      · intro hfil
        cases hfil
      · intro hact
        rw [hact2, if_neg hact]

/-- Witness for c9_delete_conversation on the concrete store: deleting
the active conversation c1 keeps the shared message m2 and activates the
first remaining conversation c2. -/
theorem c9_delete_conversation_witness :
    ((⟨"m2", "y"⟩ : StoredMessage) ∈ (deleteConversation "f" "c1" c9state).messages) ∧
    (deleteConversation "f" "c1" c9state).activeConversationId = some "c2" := by
  refine ⟨?_, ?_⟩
  · exact ((c9_delete_conversation c9state "f" "c1").1 ⟨"m2", "y"⟩).mpr
      ⟨by decide, c9conv2, by decide, by decide, by decide⟩
  · exact (c9_delete_conversation c9state "f" "c1").2.1 rfl c9conv2 [] (by decide)

end RagApp
